import Mathlib

/-!
Verification of the spinel auto-setup script (`setup.py`).

The script is embedded shallowly: the Python string methods it uses are
modelled at the character level (over `String.data`, i.e. lists of unicode
code points, which is exactly how Python slices and scans strings), and the
effectful functions (`run`, `ensure_venv`, `check_installed`,
`install_missing`) are modelled as pure functions of an explicit `World`
that carries the ambient facts each of them consults (platform, home
directory, filesystem existence, `shutil.which("uv")`, and the observable
behaviour of `subprocess.run` on each argument vector).  Every function
additionally returns the list of argument vectors it passed to `run`, in
order, so that "zero process-creation side effects" is a statement about a
returned log, not a meta-level remark.

Case-folding is modelled with `Char.toLower`, the ASCII case map; all
package names and environment-variable names in the script are ASCII.
-/

namespace Spinel

/-! ### Character-level models of the Python string methods used -/

/-- Model of Python `str.lower()` (ASCII case map, see header). -/
def pyLower (s : String) : String := ⟨s.data.map Char.toLower⟩

/-- Model of Python `str.replace(a, b)` for a single-character pattern and
single-character replacement: replace every occurrence of `a` by `b`. -/
def pyReplaceChar (s : String) (a b : Char) : String :=
  ⟨s.data.map fun c => if c = a then b else c⟩

/-- The prefix of `l` strictly before the first occurrence of the (nonempty)
pattern `pat`; the whole of `l` when `pat` does not occur.  This is Python
`s.split(pat)[0]`, which is all the script uses `split` with an argument for. -/
def truncAt (pat : List Char) : List Char → List Char
  | [] => []
  | c :: rest => if pat.isPrefixOf (c :: rest) then [] else c :: truncAt pat rest

/-- Model of Python `s.split(pat)[0]` (see `truncAt`). -/
def pySplitHead (s : String) (pat : String) : String := ⟨truncAt pat.data s.data⟩

/-- Split a character list at every occurrence of the separator character,
keeping empty pieces: Python `s.split(sep)` for a one-character `sep`. -/
def splitCharList (sep : Char) : List Char → List (List Char)
  | [] => [[]]
  | c :: rest =>
    if c = sep then [] :: splitCharList sep rest
    else
      match splitCharList sep rest with
      | [] => [[c]]
      | l :: ls => (c :: l) :: ls

/-- Model of Python `s.split(sep)` for a one-character separator. -/
def pySplitChar (s : String) (sep : Char) : List String :=
  (splitCharList sep s.data).map fun l => ⟨l⟩

/-- Helper for `pySplitWs`: whitespace-run splitting with an accumulator for
the token currently being read (kept reversed). -/
def wsSplitAux : List Char → List Char → List (List Char)
  | [], cur => if cur.isEmpty then [] else [cur.reverse]
  | c :: rest, cur =>
    if c.isWhitespace then
      if cur.isEmpty then wsSplitAux rest [] else cur.reverse :: wsSplitAux rest []
    else wsSplitAux rest (c :: cur)

/-- Model of Python `s.split()` with no argument: split on whitespace runs,
discarding empty tokens. -/
def pySplitWs (s : String) : List String := (wsSplitAux s.data []).map fun l => ⟨l⟩

/-- Drop leading whitespace characters. -/
def trimLeftList : List Char → List Char
  | [] => []
  | c :: rest => if c.isWhitespace then trimLeftList rest else c :: rest

/-- Model of Python `s.strip()`: drop leading and trailing whitespace. -/
def pyStrip (s : String) : String :=
  ⟨((trimLeftList s.data).reverse |> trimLeftList).reverse⟩

/-- Model of the Python slice `s[-n:]`: the last `n` characters of `s`
(the whole string when it is shorter than `n`). -/
def pyTakeLast (s : String) (n : Nat) : String := ⟨s.data.drop (s.data.length - n)⟩

/-! ### Module-level data of `setup.py` -/

/-- The `REQUIREMENTS` list of `setup.py`, verbatim. -/
def REQUIREMENTS : List String :=
  [ "pymatgen>=2024.0.0", "mp-api>=0.41.0", "emmet-core", "ase>=3.22",
    "hyperspy>=2.0", "kikuchipy", "pycalphad", "scheil", "phonopy", "matgl",
    "diffpy.structure", "Dans_Diffraction", "tifffile", "jcamp",
    "brukeropusreader", "spc-spectra", "cellpy", "galvani", "impedance.py",
    "PyBaMM" ]

/-! ### The Command Runner: `run` -/

/-- What one call of `subprocess.run` can observably do: either the spawned
process completes with an exit code and captured stdout/stderr texts, or the
call raises an exception (`TimeoutExpired` on timeout, `FileNotFoundError`
when the binary is absent, ...), carrying the exception's `str(e)` text. -/
inductive ExecOutcome where
  | completed (returncode : Int) (stdout stderr : String)
  | raised (msg : String)
deriving DecidableEq

/-- Function `run(cmd)` of `setup.py`: wraps one `subprocess.run` call; returns
`(returncode == 0, stdout + stderr)` on completion and `(False, str(e))`
when the call raised.  Total by construction: no outcome escapes as an
exception. -/
def run (r : ExecOutcome) : Bool × String :=
  match r with
  | .completed rc out err => (decide (rc = 0), out ++ err)
  | .raised msg => (false, msg)

/-! ### The Environment Locator: `VENV_DIR`, `get_pip`, `get_python`

Paths are lists of components; `pathStr` renders a components list the way
Python's `str(Path)` does on the given platform. -/

/-- Constant `VENV_DIR = Path.home() / ".spinel" / "venv"`, over an abstract home. -/
def venvDir (home : List String) : List String := home ++ [".spinel", "venv"]

/-- Render a components list as `str(Path)` does: separator `\` on
`sys.platform == "win32"`, `/` elsewhere. -/
def pathStr (platform : String) (comps : List String) : String :=
  String.intercalate (if platform = "win32" then "\\" else "/") comps

/-- Function `get_pip()` of `setup.py`, as path components. -/
def get_pip (platform : String) (home : List String) : List String :=
  if platform = "win32" then venvDir home ++ ["Scripts", "pip"]
  else venvDir home ++ ["bin", "pip"]

/-- Function `get_python()` of `setup.py`, as path components. -/
def get_python (platform : String) (home : List String) : List String :=
  if platform = "win32" then venvDir home ++ ["Scripts", "python"]
  else venvDir home ++ ["bin", "python"]

/-! ### The ambient world read by the effectful functions -/

/-- The ambient facts `setup.py`'s effectful functions consult.  `runOutcome`
gives, for each argument vector, what the one `subprocess.run` call on it
would observably do in this world. -/
structure World where
  platform : String
  home : List String
  pathExists : List String → Bool
  whichUv : Option String
  runOutcome : List String → ExecOutcome
  sysExecutable : String

/-! ### The Environment Provisioner: `ensure_venv` -/

/-- The `[uv, "venv", str(VENV_DIR)]` argument vector of `ensure_venv`. -/
def uvVenvCmd (uv : String) (w : World) : List String :=
  [uv, "venv", pathStr w.platform (venvDir w.home)]

/-- The `[sys.executable, "-m", "venv", str(VENV_DIR)]` argument vector of
`ensure_venv` (the canonical fallback). -/
def pyVenvCmd (w : World) : List String :=
  [w.sysExecutable, "-m", "venv", pathStr w.platform (venvDir w.home)]

/-- Function `ensure_venv()` of `setup.py`.  Returns the `(ok, message)` pair together
with the list of argument vectors passed to `run`, in order.  The
`VENV_DIR.parent.mkdir` call is a filesystem effect, not a process creation,
and is not logged.  The two `print` calls are console output and elided. -/
def ensure_venv (w : World) : (Bool × String) × List (List String) :=
  if w.pathExists (venvDir w.home ++ ["bin", "python"]) ||
      w.pathExists (venvDir w.home ++ ["Scripts", "python.exe"]) then
    ((true, "venv exists"), [])
  else
    let fallback : List (List String) → (Bool × String) × List (List String) :=
      fun spawnedSoFar =>
        let r := run (w.runOutcome (pyVenvCmd w))
        if r.1 then ((true, "created with venv"), spawnedSoFar ++ [pyVenvCmd w])
        else ((false, "Failed to create venv: " ++ r.2), spawnedSoFar ++ [pyVenvCmd w])
    match w.whichUv with
    | some uv =>
      let r := run (w.runOutcome (uvVenvCmd uv w))
      if r.1 then ((true, "created with uv"), [uvVenvCmd uv w])
      else fallback [uvVenvCmd uv w]
    | none => fallback []

/-! ### The Package Reconciler: `check_installed`, `install_missing` -/

/-- The name normalization inside `check_installed`:
`parts[0].lower().replace("-", "_").replace(".", "_")`. -/
def normalize_installed (name : String) : String :=
  pyReplaceChar (pyReplaceChar (pyLower name) '-' '_') '.' '_'

/-- Parse the `pip list --format=columns` output text exactly as
`check_installed` does: strip, split on newlines, drop the two header lines,
and for each remaining line with at least one whitespace-delimited token add
the normalized first token. -/
def parse_installed (out : String) : Finset String :=
  (((pySplitChar (pyStrip out) '\n').drop 2).filterMap fun line =>
      match pySplitWs line with
      | [] => none
      | p :: _ => some (normalize_installed p)).toFinset

/-- The `[pip, "list", "--format=columns"]` argument vector of
`check_installed`. -/
def pipListCmd (w : World) : List String :=
  [pathStr w.platform (get_pip w.platform w.home), "list", "--format=columns"]

/-- Function `check_installed()` of `setup.py`: run `pip list --format=columns`; on
failure return the empty set, otherwise the parsed set.  Also returns the
argument vectors passed to `run`. -/
def check_installed (w : World) : Finset String × List (List String) :=
  let r := run (w.runOutcome (pipListCmd w))
  if r.1 then (parse_installed r.2, [pipListCmd w]) else (∅, [pipListCmd w])

/-- The nested `normalize` of `install_missing`:
`name.lower().split(">=")[0].split("<=")[0].split("==")[0]
     .replace("-", "_").replace(".", "_")`. -/
def normalize (name : String) : String :=
  pyReplaceChar
    (pyReplaceChar
      (pySplitHead (pySplitHead (pySplitHead (pyLower name) ">=") "<=") "==")
      '-' '_')
    '.' '_'

/-- The missing-list computation of `install_missing`:
`[pkg for pkg in required if normalize(pkg) not in installed]`. -/
def missingOf (required : List String) (installed : Finset String) : List String :=
  required.filter fun pkg => !(normalize pkg ∈ installed)

/-- The `[uv, "pip", "install", "--python", get_python()] + missing`
argument vector of `install_missing`. -/
def uvInstallCmd (uv : String) (w : World) (missing : List String) : List String :=
  [uv, "pip", "install", "--python",
    pathStr w.platform (get_python w.platform w.home)] ++ missing

/-- The `[pip, "install"] + missing` argument vector of `install_missing`
(the canonical fallback). -/
def pipInstallCmd (w : World) (missing : List String) : List String :=
  [pathStr w.platform (get_pip w.platform w.home), "install"] ++ missing

/-- Function `install_missing(installed)` of `setup.py`, generalized over the
required list it reads (the script itself reads the module constant
`REQUIREMENTS`; see `install_missing`).  Returns `(ok, message)` and the
argument vectors passed to `run`, in order.  The `print` call is console
output and elided. -/
def install_missingWith (required : List String) (w : World)
    (installed : Finset String) : (Bool × String) × List (List String) :=
  let missing := missingOf required installed
  if missing.isEmpty then ((true, "all packages installed"), [])
  else
    let fallback : List (List String) → (Bool × String) × List (List String) :=
      fun spawnedSoFar =>
        let r := run (w.runOutcome (pipInstallCmd w missing))
        if r.1 then
          ((true, "installed " ++ toString missing.length ++ " packages with pip"),
            spawnedSoFar ++ [pipInstallCmd w missing])
        else
          ((false, "Installation failed: " ++ pyTakeLast r.2 500),
            spawnedSoFar ++ [pipInstallCmd w missing])
    match w.whichUv with
    | some uv =>
      let r := run (w.runOutcome (uvInstallCmd uv w missing))
      if r.1 then
        ((true, "installed " ++ toString missing.length ++ " packages with uv"),
          [uvInstallCmd uv w missing])
      else fallback [uvInstallCmd uv w missing]
    | none => fallback []

/-- Function `install_missing(installed)` of `setup.py`: the script reads the module
constant `REQUIREMENTS` as its required list. -/
def install_missing (w : World) (installed : Finset String) :
    (Bool × String) × List (List String) :=
  install_missingWith REQUIREMENTS w installed

/-! ### The Credential Validator: `check_api_keys` -/

/-- Python truthiness of `os.environ.get(k)`: falsy when the variable is
unset (`None`) or set to the empty string. -/
def envBlank (v : Option String) : Bool :=
  match v with
  | none => true
  | some s => s.isEmpty

/-- The blocking message of `check_api_keys` (two adjacent Python string
literals, concatenated). -/
def mpKeyMessage : String :=
  "MP_API_KEY not set. Get a free key at https://next-gen.materialsproject.org (Dashboard → API Key), then: export MP_API_KEY=your_key"

/-- The informational note of `check_api_keys`. -/
def nomadNote : String :=
  "NOMAD_TOKEN not set (optional — needed only for private NOMAD data)"

/-- Function `check_api_keys()` of `setup.py`, over an environment snapshot
`env : String → Option String` (`os.environ.get`).  Returns
`(issues, notes)`. -/
def check_api_keys (env : String → Option String) : List String × List String :=
  let issues := if envBlank (env "MP_API_KEY") then [mpKeyMessage] else []
  let notes := if envBlank (env "NOMAD_TOKEN") then [nomadNote] else []
  (issues, notes)

/-- String `s` mentions `t`: `t` occurs in `s` as a contiguous substring. -/
def mentions (s t : String) : Prop := t.data <:+: s.data

instance (s t : String) : Decidable (mentions s t) := List.decidableInfix t.data s.data

/-! ### Denoting the same logical package

Two name strings denote the same logical package under different
casing/separator conventions when they agree character by character up to
the ASCII case map and up to interchange of the separators `-`, `.`, `_`. -/

/-- Is `c` one of the three interchangeable separator characters? -/
def sepCharB (c : Char) : Bool := c == '-' || c == '.' || c == '_'

/-- Characters equivalent up to casing and separator convention. -/
def charEquivB (a b : Char) : Bool :=
  a.toLower == b.toLower || (sepCharB a && sepCharB b)

/-- Relation `sameLogicalNameB l1 l2`: the two character lists agree position by
position up to casing and separator convention. -/
def sameLogicalNameB : List Char → List Char → Bool
  | [], [] => true
  | a :: as, b :: bs => charEquivB a b && sameLogicalNameB as bs
  | _, _ => false

/-- The two strings denote the same logical package under (possibly)
different casing/separator conventions. -/
def sameLogicalName (s t : String) : Prop := sameLogicalNameB s.data t.data = true

/-! ### Concrete worlds used as test inputs -/

/-- A world whose venv already exists (the POSIX interpreter path is
present); every process invocation would fail, so any spawn is visible. -/
def worldExists : World where
  platform := "linux"
  home := ["h"]
  pathExists := fun p => p == venvDir ["h"] ++ ["bin", "python"]
  whichUv := none
  runOutcome := fun _ => .raised "should not be called"
  sysExecutable := "python3"

/-- A world with no venv, no `uv` on the search path, and a `subprocess`
that makes every invocation succeed with empty output. -/
def worldFresh : World where
  platform := "linux"
  home := ["h"]
  pathExists := fun _ => false
  whichUv := none
  runOutcome := fun _ => .completed 0 "" ""
  sysExecutable := "python3"

/-- A world with no venv, `uv` discoverable, and a `subprocess` that makes
every invocation succeed with empty output. -/
def worldUvOk : World where
  platform := "linux"
  home := ["h"]
  pathExists := fun _ => false
  whichUv := some "uv"
  runOutcome := fun _ => .completed 0 "" ""
  sysExecutable := "python3"

/-- A world with no venv, no `uv`, and a `subprocess` that makes every
invocation exit with code 1 and output "error". -/
def worldAllFail : World where
  platform := "linux"
  home := ["h"]
  pathExists := fun _ => false
  whichUv := none
  runOutcome := fun _ => .completed 1 "error" ""
  sysExecutable := "python3"

/-- A world whose `pip list --format=columns` invocation succeeds with a
two-line header followed by one package row. -/
def worldListing : World where
  platform := "linux"
  home := ["h"]
  pathExists := fun _ => false
  whichUv := none
  runOutcome := fun _ =>
    .completed 0 "Package Version\n------- -------\nDans-Diffraction 1.0" ""
  sysExecutable := "python3"

/-- An installed set holding the normalized name of every requirement. -/
def allInstalled : Finset String := (REQUIREMENTS.map normalize).toFinset

/-- The one-character map underlying both normalizations: separators `-` and
`.` become `_`, everything else is kept. -/
def sepMap (c : Char) : Char := if c = '-' then '_' else if c = '.' then '_' else c

instance (s t : String) : Decidable (sameLogicalName s t) :=
  inferInstanceAs (Decidable (sameLogicalNameB s.data t.data = true))

/-! ### Helper lemmas -/

/-- Case analysis for the ASCII case map: either the character is untouched
and is not an ASCII capital, or the result is `Char.ofNat m` for some code
`m` of a lowercase ASCII letter. -/
theorem toLower_cases (c : Char) :
    (c.toLower = c ∧ ¬(65 ≤ c.toNat ∧ c.toNat ≤ 90)) ∨
    ∃ m, 97 ≤ m ∧ m ≤ 122 ∧ c.toLower = Char.ofNat m := by
  by_cases h : 65 ≤ c.toNat ∧ c.toNat ≤ 90
  · refine Or.inr ⟨c.toNat + 32, by omega, by omega, ?_⟩
    simp [Char.toLower]
    intro hc
    exact absurd (hc h.1) (by omega)
  · refine Or.inl ⟨?_, h⟩
    simp [Char.toLower]
    intro h1 h2
    exact absurd ⟨h1, h2⟩ h

/-- A lowercase ASCII letter is not a separator, not `=`, and not a capital. -/
theorem ofNat_lower_props (m : Nat) (h1 : 97 ≤ m) (h2 : m ≤ 122) :
    Char.ofNat m ≠ '-' ∧ Char.ofNat m ≠ '.' ∧ Char.ofNat m ≠ '=' ∧
      ¬(65 ≤ (Char.ofNat m).toNat ∧ (Char.ofNat m).toNat ≤ 90) := by
  interval_cases m <;> exact (by decide)

/-- Any character put through lowercasing and separator replacement is not
a separator and not an ASCII capital. -/
theorem sepMap_toLower_props (c : Char) :
    sepMap c.toLower ≠ '-' ∧ sepMap c.toLower ≠ '.' ∧
      ¬(65 ≤ (sepMap c.toLower).toNat ∧ (sepMap c.toLower).toNat ≤ 90) := by
  rcases toLower_cases c with ⟨heq, hup⟩ | ⟨m, h1, h2, heq⟩ <;> rw [heq] <;> unfold sepMap
  · by_cases h1 : c = '-'
    · simp [h1]
    · by_cases h2 : c = '.'
      · simp [h1, h2]
      · simp [h1, h2]
        omega
  · rcases ofNat_lower_props m h1 h2 with ⟨p1, p2, p3, p4⟩
    simp [p1, p2]
    omega

/-- The installed-name normalization is the character map `sepMap ∘ toLower`. -/
theorem normalize_installed_data (s : String) :
    (normalize_installed s).data = s.data.map (fun c => sepMap c.toLower) := by
  simp only [normalize_installed, pyReplaceChar, pyLower, List.map_map]
  congr 1
  funext c
  simp only [Function.comp]
  by_cases h1 : c.toLower = '-' <;> by_cases h2 : c.toLower = '.' <;>
    simp [sepMap, h1, h2]

/-- Lowercasing cannot produce `=` out of another character. -/
theorem toLower_ne_eqChar (c : Char) (h : c ≠ '=') : c.toLower ≠ '=' := by
  rcases toLower_cases c with ⟨heq, _⟩ | ⟨m, h1, h2, heq⟩ <;> rw [heq]
  · exact h
  · exact (ofNat_lower_props m h1 h2).2.2.1

/-- Every character of a Boolean-prefix is a character of the longer list. -/
theorem mem_of_isPrefixOf {p l : List Char} (h : p.isPrefixOf l = true) :
    ∀ x ∈ p, x ∈ l := by
  induction p generalizing l with
  | nil => simp
  | cons a as ih =>
    cases l with
    | nil => simp [List.isPrefixOf] at h
    | cons b bs =>
      simp only [List.isPrefixOf, Bool.and_eq_true, beq_iff_eq] at h
      intro x hx
      rcases List.mem_cons.mp hx with rfl | hx
      · exact h.1 ▸ List.mem_cons_self _ _
      · exact List.mem_cons_of_mem _ (ih h.2 x hx)

/-- Truncation at a pattern is the identity when some character of the
pattern does not occur in the list at all. -/
theorem truncAt_eq_self {pat l : List Char} {c : Char}
    (hc : c ∈ pat) (hl : c ∉ l) : truncAt pat l = l := by
  induction l with
  | nil => rfl
  | cons b bs ih =>
    unfold truncAt
    rw [if_neg]
    · rw [ih (fun hmem => hl (List.mem_cons_of_mem _ hmem))]
    · intro hpre
      exact hl (mem_of_isPrefixOf hpre c hc)

/-- Lowercasing preserves freedom from `=`. -/
theorem pyLower_no_eqChar (s : String) (h : '=' ∉ s.data) :
    '=' ∉ (pyLower s).data := by
  simp only [pyLower, List.mem_map]
  rintro ⟨c, hc, hlc⟩
  exact toLower_ne_eqChar c (fun hceq => h (hceq ▸ hc)) hlc

/-- On a string with no `=` (hence no comparator token), the PackageSpec
normalization agrees with the installed-name normalization. -/
theorem normalize_eq_installed (s : String) (h : '=' ∉ s.data) :
    normalize s = normalize_installed s := by
  have h2 := pyLower_no_eqChar s h
  have t1 : pySplitHead (pyLower s) ">=" = pyLower s := by
    simp only [pySplitHead]
    rw [truncAt_eq_self (by decide : '=' ∈ (">=").data) h2]
  have t2 : pySplitHead (pyLower s) "<=" = pyLower s := by
    simp only [pySplitHead]
    rw [truncAt_eq_self (by decide : '=' ∈ ("<=").data) h2]
  have t3 : pySplitHead (pyLower s) "==" = pyLower s := by
    simp only [pySplitHead]
    rw [truncAt_eq_self (by decide : '=' ∈ ("==").data) h2]
  unfold normalize normalize_installed
  rw [t1, t2, t3]

/-- Equivalent characters normalize to the same character. -/
theorem sepMap_toLower_congr {a b : Char} (h : charEquivB a b = true) :
    sepMap a.toLower = sepMap b.toLower := by
  simp only [charEquivB, Bool.or_eq_true, Bool.and_eq_true, beq_iff_eq] at h
  rcases h with h | ⟨ha, hb⟩
  · rw [h]
  · simp only [sepCharB, Bool.or_eq_true, beq_iff_eq] at ha hb
    rcases ha with (rfl | rfl) | rfl <;> rcases hb with (rfl | rfl) | rfl <;> decide

/-- Lists equivalent up to casing/separators have equal normalizations. -/
theorem sameLogical_map_eq {l1 l2 : List Char} (h : sameLogicalNameB l1 l2 = true) :
    l1.map (fun c => sepMap c.toLower) = l2.map (fun c => sepMap c.toLower) := by
  induction l1 generalizing l2 with
  | nil => cases l2 with
    | nil => rfl
    | cons b bs => simp [sameLogicalNameB] at h
  | cons a as ih =>
    cases l2 with
    | nil => simp [sameLogicalNameB] at h
    | cons b bs =>
      simp only [sameLogicalNameB, Bool.and_eq_true] at h
      simp only [List.map_cons, sepMap_toLower_congr h.1, ih h.2]

/-- Strings denoting the same logical package have equal installed-name
normalizations. -/
theorem normalize_installed_congr {s t : String} (h : sameLogicalName s t) :
    normalize_installed s = normalize_installed t := by
  have hmap := sameLogical_map_eq h
  have hd : (normalize_installed s).data = (normalize_installed t).data := by
    rw [normalize_installed_data, normalize_installed_data, hmap]
  cases hs : normalize_installed s
  cases ht : normalize_installed t
  rw [hs, ht] at hd
  simp_all

/-- When the venv is absent and `uv` is either not discoverable or fails,
`ensure_venv` reduces to the outcome of the canonical `-m venv` fallback. -/
theorem ensure_venv_fallback (w : World)
    (hex : (w.pathExists (venvDir w.home ++ ["bin", "python"]) ||
        w.pathExists (venvDir w.home ++ ["Scripts", "python.exe"])) = false)
    (hfast : ∀ uv, w.whichUv = some uv → (run (w.runOutcome (uvVenvCmd uv w))).1 = false) :
    ensure_venv w =
      (if (run (w.runOutcome (pyVenvCmd w))).1 then
        ((true, "created with venv"),
          (w.whichUv.map (fun uv => uvVenvCmd uv w)).toList ++ [pyVenvCmd w])
      else
        ((false, "Failed to create venv: " ++ (run (w.runOutcome (pyVenvCmd w))).2),
          (w.whichUv.map (fun uv => uvVenvCmd uv w)).toList ++ [pyVenvCmd w])) := by
  unfold ensure_venv
  rw [hex]
  cases huv : w.whichUv with
  | none => simp
  | some uv => simp [hfast uv huv]

/-- With nothing missing, `install_missing` returns immediately. -/
theorem install_missingWith_empty (required : List String) (w : World)
    (installed : Finset String) (h : missingOf required installed = []) :
    install_missingWith required w installed = ((true, "all packages installed"), []) := by
  simp only [install_missingWith]
  rw [h]
  simp

/-- When something is missing and `uv` is either not discoverable or fails,
`install_missing` reduces to the outcome of the `pip install` fallback. -/
theorem install_missingWith_fallback (required : List String) (w : World)
    (installed : Finset String)
    (hm : missingOf required installed ≠ [])
    (hfast : ∀ uv, w.whichUv = some uv →
      (run (w.runOutcome (uvInstallCmd uv w (missingOf required installed)))).1 = false) :
    install_missingWith required w installed =
      (let missing := missingOf required installed
       let pre := (w.whichUv.map (fun uv => uvInstallCmd uv w missing)).toList
       if (run (w.runOutcome (pipInstallCmd w missing))).1 then
        ((true, "installed " ++ toString missing.length ++ " packages with pip"),
          pre ++ [pipInstallCmd w missing])
      else
        ((false, "Installation failed: " ++
            pyTakeLast (run (w.runOutcome (pipInstallCmd w missing))).2 500),
          pre ++ [pipInstallCmd w missing])) := by
  simp only [install_missingWith, List.isEmpty_iff]
  rw [if_neg hm]
  cases huv : w.whichUv with
  | none => simp
  | some uv => simp [hfast uv huv]

/-- Every argument vector `install_missing` ever passes to `run` is one of
the two install commands over the missing list. -/
theorem install_spawn_shape (required : List String) (w : World) (installed : Finset String) :
    ∀ cmd ∈ (install_missingWith required w installed).2,
      (∃ uv, cmd = uvInstallCmd uv w (missingOf required installed)) ∨
      cmd = pipInstallCmd w (missingOf required installed) := by
  intro cmd hcmd
  by_cases hm : missingOf required installed = []
  · rw [install_missingWith_empty required w installed hm] at hcmd
    simp at hcmd
  · simp only [install_missingWith, List.isEmpty_iff] at hcmd
    rw [if_neg hm] at hcmd
    cases huv : w.whichUv with
    | none =>
      rw [huv] at hcmd
      by_cases hr : (run (w.runOutcome (pipInstallCmd w (missingOf required installed)))).1 = true <;>
        simp [hr] at hcmd <;> exact Or.inr hcmd
    | some uv =>
      rw [huv] at hcmd
      by_cases hu : (run (w.runOutcome (uvInstallCmd uv w (missingOf required installed)))).1 = true
      · simp [hu] at hcmd
        exact Or.inl ⟨uv, hcmd⟩
      · by_cases hr : (run (w.runOutcome (pipInstallCmd w (missingOf required installed)))).1 = true <;>
          simp [hu, hr] at hcmd <;> rcases hcmd with rfl | rfl
        · exact Or.inl ⟨uv, rfl⟩
        · exact Or.inr rfl
        · exact Or.inl ⟨uv, rfl⟩
        · exact Or.inr rfl

/-! ### The claims -/

/-- C1, counterexample: in a world where the venv already exists,
`ensure_venv` returns the message "venv exists", not "already exists" as
the claim states. -/
theorem C1_counterexample :
    ensure_venv worldExists = ((true, "venv exists"), []) ∧
      "venv exists" ≠ "already exists" := by decide

/-- C1, amended: when the managed environment already exists (the
interpreter binary is present at `bin/python` or `Scripts/python.exe`
under the base directory), `ensure_venv` returns success immediately with
message "venv exists" (the code's actual message; the claim said
"already exists") and passes no argument vector to `run`.  Since
`ensure_venv` is a function of the unchanged world, calling it twice in
succession yields `ok = true` both times and the second call performs zero
process-creation side effects. -/
theorem ensure_venv_idempotent (w : World)
    (h : w.pathExists (venvDir w.home ++ ["bin", "python"]) = true ∨
      w.pathExists (venvDir w.home ++ ["Scripts", "python.exe"]) = true) :
    ensure_venv w = ((true, "venv exists"), []) := by
  rcases h with h | h <;> simp [ensure_venv, h]

/-- C1, witness: `worldExists` satisfies the existence hypothesis, and
`ensure_venv` returns success there with no spawn. -/
theorem C1_witness :
    (worldExists.pathExists (venvDir worldExists.home ++ ["bin", "python"]) = true ∨
      worldExists.pathExists (venvDir worldExists.home ++ ["Scripts", "python.exe"]) = true) ∧
      ensure_venv worldExists = ((true, "venv exists"), []) :=
  ⟨Or.inl (by decide), ensure_venv_idempotent worldExists (Or.inl (by decide))⟩

/-- C2: two strings denoting the same logical package under different
casing/separator conventions get an identical key: the installed-name
normalizations agree, and when the spec string carries no comparator
character the PackageSpec normalization of the one equals the
installed-name normalization of the other, so set membership between
required specs and installed names is meaningful. -/
theorem normalization_equivalence (s t : String) (h : sameLogicalName s t) :
    normalize_installed s = normalize_installed t ∧
      ('=' ∉ s.data → normalize s = normalize_installed t) :=
  ⟨normalize_installed_congr h,
    fun he => (normalize_eq_installed s he).trans (normalize_installed_congr h)⟩

/-- C2, witness: "Dans_Diffraction", "dans-diffraction" and
"dans.diffraction" all map to the key "dans_diffraction". -/
theorem C2_witness :
    normalize "Dans_Diffraction" = normalize_installed "dans-diffraction" ∧
      normalize "Dans_Diffraction" = normalize_installed "dans.diffraction" :=
  ⟨(normalization_equivalence "Dans_Diffraction" "dans-diffraction" (by decide)).2 (by decide),
    (normalization_equivalence "Dans_Diffraction" "dans.diffraction" (by decide)).2 (by decide)⟩

/-- C3: a required spec is missing iff its normalized bare name is absent
from the installed set; the missing list preserves the original declaration
strings in declaration order (it is a sublist of the required list); every
install invocation receives exactly the missing declarations (each spawned
argument vector is a fixed prefix followed by exactly the missing list);
and on required `["alpha>=1.0", "beta"]` with installed `{"alpha"}` the
missing list is `["beta"]` and the install is invoked with exactly
`["beta"]`. -/
theorem missing_diff_exact (required : List String) (w : World) (installed : Finset String) :
    (∀ pkg, pkg ∈ missingOf required installed ↔
      pkg ∈ required ∧ normalize pkg ∉ installed)
    ∧ (missingOf required installed).Sublist required
    ∧ (∀ cmd ∈ (install_missingWith required w installed).2,
        ∃ pre, cmd = pre ++ missingOf required installed)
    ∧ missingOf ["alpha>=1.0", "beta"] {"alpha"} = ["beta"]
    ∧ (install_missingWith ["alpha>=1.0", "beta"] worldUvOk {"alpha"}).2 =
        [["uv", "pip", "install", "--python", "h/.spinel/venv/bin/python", "beta"]] := by
  refine ⟨fun pkg => ?_, List.filter_sublist _, fun cmd hcmd => ?_, by decide, by decide⟩
  · simp [missingOf]
  · rcases install_spawn_shape required w installed cmd hcmd with ⟨uv, rfl⟩ | rfl
    · exact ⟨_, rfl⟩
    · exact ⟨_, rfl⟩

/-- C4: when every requirement's normalized bare name is in the installed
set, `install_missing` returns success with message
"all packages installed" and passes no argument vector to `run`. -/
theorem reconcile_empty_diff_no_op (w : World) (installed : Finset String)
    (h : ∀ pkg ∈ REQUIREMENTS, normalize pkg ∈ installed) :
    install_missing w installed = ((true, "all packages installed"), []) := by
  have hm : missingOf REQUIREMENTS installed = [] := by
    simp only [missingOf, List.filter_eq_nil_iff]
    intro pkg hpkg
    simp [h pkg hpkg]
  exact install_missingWith_empty _ _ _ hm

/-- C4, witness: with all normalized requirement names installed,
reconciliation is a no-op even in a world where `uv` is available. -/
theorem C4_witness :
    (∀ pkg ∈ REQUIREMENTS, normalize pkg ∈ allInstalled) ∧
      install_missing worldUvOk allInstalled = ((true, "all packages installed"), []) :=
  ⟨by decide, reconcile_empty_diff_no_op worldUvOk allInstalled (by decide)⟩

/-- C5: in both the Provisioner and the Reconciler (venv absent, something
missing): if `uv` is not discoverable or its invocation fails, the
canonical fallback is attempted and the final `(ok, message)` result
reflects only the fallback's outcome (in particular `ok` equals the
fallback invocation's success bit, so failure is returned exactly when the
fallback has also failed); and if the fast path succeeds no failure is
returned. -/
theorem fast_fallback_ordering (w : World) (installed : Finset String)
    (hex : (w.pathExists (venvDir w.home ++ ["bin", "python"]) ||
        w.pathExists (venvDir w.home ++ ["Scripts", "python.exe"])) = false)
    (hmiss : missingOf REQUIREMENTS installed ≠ []) :
    ((∀ uv, w.whichUv = some uv → (run (w.runOutcome (uvVenvCmd uv w))).1 = false) →
      (ensure_venv w).1 =
        (if (run (w.runOutcome (pyVenvCmd w))).1 then (true, "created with venv")
         else (false, "Failed to create venv: " ++ (run (w.runOutcome (pyVenvCmd w))).2))
      ∧ (ensure_venv w).1.1 = (run (w.runOutcome (pyVenvCmd w))).1)
    ∧ (∀ uv, w.whichUv = some uv → (run (w.runOutcome (uvVenvCmd uv w))).1 = true →
        (ensure_venv w).1 = (true, "created with uv"))
    ∧ ((∀ uv, w.whichUv = some uv →
          (run (w.runOutcome (uvInstallCmd uv w (missingOf REQUIREMENTS installed)))).1 = false) →
      (install_missing w installed).1 =
        (if (run (w.runOutcome (pipInstallCmd w (missingOf REQUIREMENTS installed)))).1 then
          (true, "installed " ++ toString (missingOf REQUIREMENTS installed).length ++
            " packages with pip")
         else
          (false, "Installation failed: " ++
            pyTakeLast (run (w.runOutcome (pipInstallCmd w (missingOf REQUIREMENTS installed)))).2 500))
      ∧ (install_missing w installed).1.1 =
          (run (w.runOutcome (pipInstallCmd w (missingOf REQUIREMENTS installed)))).1)
    ∧ (∀ uv, w.whichUv = some uv →
        (run (w.runOutcome (uvInstallCmd uv w (missingOf REQUIREMENTS installed)))).1 = true →
        (install_missing w installed).1 =
          (true, "installed " ++ toString (missingOf REQUIREMENTS installed).length ++
            " packages with uv")) := by
  refine ⟨fun hfastV => ?_, fun uv huv hu => ?_, fun hfastI => ?_, fun uv huv hu => ?_⟩
  · rw [ensure_venv_fallback w hex hfastV]
    by_cases hV : (run (w.runOutcome (pyVenvCmd w))).1 = true <;> simp [hV]
  · unfold ensure_venv
    rw [hex, huv]
    simp [hu]
  · rw [install_missing, install_missingWith_fallback REQUIREMENTS w installed hmiss hfastI]
    by_cases hI : (run (w.runOutcome (pipInstallCmd w (missingOf REQUIREMENTS installed)))).1 = true <;>
      simp [hI]
  · rw [install_missing]
    simp only [install_missingWith, List.isEmpty_iff]
    rw [if_neg hmiss, huv]
    simp [hu]

/-- C5, witness: in `worldAllFail` (`uv` absent, every invocation failing)
the venv-creation result is the fallback's failure message and the install
result's success bit equals the `pip install` fallback's. -/
theorem C5_witness :
    ((ensure_venv worldAllFail).1 = (false, "Failed to create venv: error")) ∧
      ((install_missing worldAllFail ∅).1.1 =
        (run (worldAllFail.runOutcome (pipInstallCmd worldAllFail (missingOf REQUIREMENTS ∅)))).1) := by
  have h := fast_fallback_ordering worldAllFail ∅ (by decide) (by decide)
  refine ⟨?_, (h.2.2.1 (fun uv huv => Option.noConfusion huv)).2⟩
  rw [(h.1 (fun uv huv => Option.noConfusion huv)).1]
  decide

/-- C6: when the listing invocation fails, `check_installed` returns the
empty set (totally, with no escaping fault), and against an empty installed
set every required spec is classified missing, so the subsequent reconcile
step attempts to install every required spec. -/
theorem listing_fail_open (w : World)
    (h : (run (w.runOutcome (pipListCmd w))).1 = false) :
    check_installed w = (∅, [pipListCmd w]) ∧
      (∀ required, missingOf required ∅ = required) := by
  constructor
  · simp [check_installed, h]
  · intro required
    simp [missingOf]

/-- C6, witness: in `worldAllFail` the listing fails, the installed set is
empty, and the whole `REQUIREMENTS` list is reported missing. -/
theorem C6_witness :
    check_installed worldAllFail = (∅, [pipListCmd worldAllFail]) ∧
      missingOf REQUIREMENTS ∅ = REQUIREMENTS := by
  have h := listing_fail_open worldAllFail (by decide)
  exact ⟨h.1, h.2 REQUIREMENTS⟩

/-- C7: the Command Runner is total (defined as a Lean function it can
raise nothing): on exit code zero it returns `succeeded = true` with the
combined stdout and stderr text; on a non-zero exit it returns
`succeeded = false` with the combined captured output; on any raised
exception (timeout, binary not found) it returns `succeeded = false` with
the exception text. -/
theorem run_never_raises :
    (∀ out err, run (.completed 0 out err) = (true, out ++ err))
    ∧ (∀ rc out err, rc ≠ 0 → run (.completed rc out err) = (false, out ++ err))
    ∧ (∀ msg, run (.raised msg) = (false, msg)) := by
  refine ⟨fun out err => rfl, fun rc out err h => ?_, fun msg => rfl⟩
  simp [run, h]

/-- C7, witness: concrete instances of the three cases. -/
theorem C7_witness :
    run (.completed 1 "out" "err") = (false, "outerr") ∧
      run (.raised "TimeoutExpired") = (false, "TimeoutExpired") :=
  ⟨run_never_raises.2.1 1 "out" "err" (by decide), run_never_raises.2.2 "TimeoutExpired"⟩

/-- C8, counterexample: on `win32` the interpreter path computed by
`get_python` ends in the bare component "python" — there is no `.exe`
suffix anywhere in the rendered path, contrary to the claim. -/
theorem C8_counterexample :
    (get_python "win32" ["C:", "Users", "u"]).getLast? = some "python" ∧
      "python" ≠ "python.exe" ∧
      ¬ mentions (pathStr "win32" (get_python "win32" ["C:", "Users", "u"])) ".exe" := by
  decide

/-- C8, amended: on a Windows-like platform the Environment Locator places
the interpreter and package manager under the `Scripts/` subdirectory but
with no `.exe` suffix (`Scripts/python`, `Scripts/pip`); on POSIX-like
platforms under `bin/`.  (Only `ensure_venv`'s existence probe mentions
`Scripts/python.exe`.) -/
theorem locator_platform_paths (home : List String) :
    get_python "win32" home = venvDir home ++ ["Scripts", "python"]
    ∧ get_pip "win32" home = venvDir home ++ ["Scripts", "pip"]
    ∧ (∀ p, p ≠ "win32" →
        get_python p home = venvDir home ++ ["bin", "python"]
        ∧ get_pip p home = venvDir home ++ ["bin", "pip"]) :=
  ⟨by simp [get_python], by simp [get_pip],
    fun p hp => ⟨by simp [get_python, hp], by simp [get_pip, hp]⟩⟩

/-- C8, witness: the locator paths at a concrete home on `win32` and on
`linux`. -/
theorem C8_witness :
    get_python "win32" ["h"] = venvDir ["h"] ++ ["Scripts", "python"] ∧
      get_python "linux" ["h"] = venvDir ["h"] ++ ["bin", "python"] :=
  ⟨(locator_platform_paths ["h"]).1, ((locator_platform_paths ["h"]).2.2 "linux" (by decide)).1⟩

/-- C9: with the required variable (`MP_API_KEY`) unset or empty and the
optional variable (`NOMAD_TOKEN`) unset or empty, `check_api_keys` returns
exactly one blocking issue mentioning `MP_API_KEY` and exactly one
informational note mentioning `NOMAD_TOKEN`; with both set non-empty it
returns zero issues and zero notes; and the result depends only on the
non-empty-string check of the two variables. -/
theorem credential_classification (env : String → Option String) :
    (envBlank (env "MP_API_KEY") = true → envBlank (env "NOMAD_TOKEN") = true →
      check_api_keys env = ([mpKeyMessage], [nomadNote])
      ∧ mentions mpKeyMessage "MP_API_KEY" ∧ mentions nomadNote "NOMAD_TOKEN")
    ∧ (envBlank (env "MP_API_KEY") = false → envBlank (env "NOMAD_TOKEN") = false →
      check_api_keys env = ([], []))
    ∧ (∀ env2 : String → Option String,
        envBlank (env "MP_API_KEY") = envBlank (env2 "MP_API_KEY") →
        envBlank (env "NOMAD_TOKEN") = envBlank (env2 "NOMAD_TOKEN") →
        check_api_keys env = check_api_keys env2) := by
  refine ⟨fun h1 h2 => ⟨by simp [check_api_keys, h1, h2], by decide, by decide⟩,
    fun h1 h2 => by simp [check_api_keys, h1, h2],
    fun env2 h1 h2 => ?_⟩
  simp only [check_api_keys]
  rw [← h1, ← h2]

/-- C9, witness: the all-unset and all-set environment snapshots. -/
theorem C9_witness :
    check_api_keys (fun _ => none) = ([mpKeyMessage], [nomadNote]) ∧
      check_api_keys (fun _ => some "key") = ([], []) :=
  ⟨((credential_classification (fun _ => none)).1 (by decide) (by decide)).1,
    (credential_classification (fun _ => some "key")).2.1 (by decide) (by decide)⟩

/-- C10: over every world — hence every possible listing-output text,
including texts with fewer than two header lines, the empty string, or
whitespace-only lines — `check_installed` is a total function returning a
(possibly empty) set, and every character of every returned name is
neither `-` nor `.` nor an ASCII capital letter. -/
theorem parse_installed_safe (w : World) (name : String) (c : Char)
    (hname : name ∈ (check_installed w).1) (hc : c ∈ name.data) :
    c ≠ '-' ∧ c ≠ '.' ∧ ¬(65 ≤ c.toNat ∧ c.toNat ≤ 90) := by
  have hparse : ∃ p : String, name = normalize_installed p := by
    by_cases hr : (run (w.runOutcome (pipListCmd w))).1 = true
    · simp only [check_installed, hr, if_pos] at hname
      simp only [parse_installed, List.mem_toFinset, List.mem_filterMap] at hname
      obtain ⟨line, _, hmatch⟩ := hname
      cases hsp : pySplitWs line with
      | nil => rw [hsp] at hmatch; exact absurd hmatch (by simp)
      | cons p ps =>
        rw [hsp] at hmatch
        simp at hmatch
        exact ⟨p, hmatch.symm⟩
    · simp [check_installed, hr] at hname
  obtain ⟨p, rfl⟩ := hparse
  rw [normalize_installed_data] at hc
  obtain ⟨c0, _, rfl⟩ := List.mem_map.mp hc
  exact sepMap_toLower_props c0

/-- C10, witness: `worldListing` yields the set `{"dans_diffraction"}`, and
its character `d` is neither a separator nor a capital. -/
theorem C10_witness :
    ("dans_diffraction" ∈ (check_installed worldListing).1) ∧
      ('d' ∈ "dans_diffraction".data) ∧
      ('d' ≠ '-' ∧ 'd' ≠ '.' ∧ ¬(65 ≤ 'd'.toNat ∧ 'd'.toNat ≤ 90)) :=
  ⟨by decide, by decide,
    parse_installed_safe worldListing "dans_diffraction" 'd' (by decide) (by decide)⟩

end Spinel
